import Mathlib

/-!
Shallow embedding of the KiBRA multicast-listener-registration and
diagnostics engine (src/kibra/coapserver.py and src/kibra/diags.py).

The code is Python 3; where its dynamic typing matters the embedding keeps
it explicit: a `PyVal` is the runtime value of a variable that can hold
`None`, an `int`, a byte sequence (a `ThreadTLV` value) or
`datetime.datetime.max`, and operations that raise a Python exception
return `Except PyErr`.  The modules `kibra.tlv`, `kibra.thread` and
`kibra.database` are not part of the staged sources, so the TLV codec, the
TLV type constants and the configured values are modelled from the spec
(each such definition says so in its doc comment).  External side effects
(mcproxy configuration files, sockets, logging) are outside the embedded
state, as the spec treats them as collaborator interfaces.
-/

namespace KiBRA

/-- A Python runtime exception, by class, as raised by the embedded code. -/
inductive PyErr where
  | typeError
  | valueError
  | indexError
  | nameError
  | structError
  | malformedTlv
deriving DecidableEq

/-- The runtime value of the dynamically typed variables of
`coapserver.py` (`timeout`, `comm_sid`, `addr_tout`): Python `None`, an
`int`, a TLV value byte sequence, or `datetime.datetime.max` (which
`MulticastHandler.__init__` passes as a timeout). -/
inductive PyVal where
  | none
  | int (n : Nat)
  | bytes (bs : List Nat)
  | dtMax
deriving DecidableEq

/-- Decidable equality for `Except`, so concrete runs of the embedded
code can be checked by `decide`. -/
instance {ε α : Type} [DecidableEq ε] [DecidableEq α] : DecidableEq (Except ε α) := fun x y =>
  match x, y with
  | .ok a, .ok b => if h : a = b then .isTrue (by rw [h]) else .isFalse (by simp [h])
  | .error a, .error b => if h : a = b then .isTrue (by rw [h]) else .isFalse (by simp [h])
  | .ok _, .error _ => .isFalse (by simp)
  | .error _, .ok _ => .isFalse (by simp)

/-- Python truthiness of a `PyVal`: `None` is falsy, numbers are truthy
unless zero, sequences are truthy unless empty, objects are truthy. -/
def PyVal.truthy : PyVal → Bool
  | .none => false
  | .int n => n ≠ 0
  | .bytes bs => bs ≠ []
  | .dtMax => true

/-- Python `addr_tout > 0` (line 48 of coapserver.py): defined for an
`int`, a `TypeError` for a byte sequence, `None` or a `datetime`. -/
def pyGtZero : PyVal → Except PyErr Bool
  | .int n => .ok (decide (0 < n))
  | _ => .error .typeError

/-- Python `sub in s` on strings: substring membership. -/
def pyIn (sub s : String) : Bool := decide (sub.toList <:+: s.toList)

/-- A decoded Thread TLV.  Modelled from the spec: `kibra/tlv.py` is not in
src/.  The spec's invariant `length == len(value)` is kept by deriving
`length` from `value`. -/
structure ThreadTLV where
  t : Nat
  value : List Nat
deriving DecidableEq

/-- The `length` field of a decoded TLV (the spec's invariant makes it the
byte length of the value). -/
def ThreadTLV.length (tlv : ThreadTLV) : Nat := tlv.value.length

/-- Wire encoding `ThreadTLV.array()`: type byte, length byte, value. -/
def ThreadTLV.array (tlv : ThreadTLV) : List Nat := tlv.t :: tlv.value.length :: tlv.value

/-- Modelled from the spec: `ThreadTLV.sub_tlvs` scans a buffer as
consecutive TLVs until the cursor reaches the end, and fails with
`MalformedTlv` (here `none`) on an incomplete trailing TLV. -/
def sub_tlvs : List Nat → Option (List ThreadTLV)
  | [] => some []
  | [_] => none
  | t :: l :: rest =>
    if l ≤ rest.length then
      match sub_tlvs (rest.drop l) with
      | some tlvs => some (⟨t, rest.take l⟩ :: tlvs)
      | none => none
    else none
termination_by v => v.length
decreasing_by
  simp only [List.length_drop, List.length_cons]
  omega

/-- Modelled from the spec: `ThreadTLV(data=...)` decodes one top-level
TLV and fails with `MalformedTlv` if the declared length exceeds the
available bytes. -/
def decode1 : List Nat → Option ThreadTLV
  | t :: l :: rest => if l ≤ rest.length then some ⟨t, rest.take l⟩ else none
  | _ => none

/-- A hextet rendered as Python `'%x' % n`: lowercase hex, no leading
zeros. -/
def hexStr (n : Nat) : String := (Nat.toDigits 16 n).asString

/-- The eight hextet strings of a 16-byte IPv6 address (two bytes each,
big endian), as CPython's `ipaddress` module renders them before
compression. -/
def hextetsOf : List Nat → List String
  | b0 :: b1 :: rest => hexStr (b0 * 256 + b1) :: hextetsOf rest
  | _ => []

/-- The leftmost longest run of `"0"` hextets, as CPython
`_compress_hextets` finds it: `(best start, best length)` threaded with
the current run.  `Option Nat` stands for CPython's `-1` sentinel. -/
def zeroRun : List String → Nat → (Option Nat × Nat) → (Option Nat × Nat) → (Option Nat × Nat)
  | [], _, best, _ => best
  | h :: rest, idx, (bs, bl), (cs, cl) =>
    if h = "0" then
      let cl' := cl + 1
      let cs' := match cs with | Option.none => some idx | some c => some c
      let best' := if cl' > bl then (cs', cl') else (bs, bl)
      zeroRun rest (idx + 1) best' (cs', cl')
    else zeroRun rest (idx + 1) (bs, bl) (Option.none, 0)

/-- CPython `_compress_hextets`: replace the leftmost longest run of at
least two `"0"` hextets with an empty string, padding an edge run so the
join below produces `::`. -/
def compressHextets (hs : List String) : List String :=
  match zeroRun hs 0 (Option.none, 0) (Option.none, 0) with
  | (some start, len) =>
    if len > 1 then
      let hs1 := if start + len = hs.length then hs ++ [""] else hs
      let hs2 := hs1.take start ++ [""] ++ hs1.drop (start + len)
      if start = 0 then "" :: hs2 else hs2
    else hs
  | (Option.none, _) => hs

/-- Python `str(ipaddress.IPv6Address(bytes(addr)))`: the RFC 5952
compressed form, as CPython renders it. -/
def ipv6Str (bs : List Nat) : String :=
  String.intercalate ":" (compressHextets (hextetsOf bs))

/-! ## TLV type constants and configured values

`kibra.thread` (the constants `TLV.*` and `DEFS.*`) and `kibra.database`
are not in src/.  The spec names the TLV types and says the type
identifiers are plain integers; only their distinctness matters to the
embedded logic, so concrete distinct values are fixed here. -/

/-- Modelled from the spec: `TLV.A_IPV6_ADDRESSES` (registration-domain
address-list TLV type). -/
def A_IPV6_ADDRESSES : Nat := 160

/-- Modelled from the spec: `TLV.A_TIMEOUT` (4-byte timeout TLV type). -/
def A_TIMEOUT : Nat := 161

/-- Modelled from the spec: `TLV.A_COMMISSIONER_SESSION_ID`. -/
def A_COMMISSIONER_SESSION_ID : Nat := 162

/-- Modelled from the spec: `TLV.A_STATUS` (the 1-byte status TLV of the
response). -/
def A_STATUS : Nat := 163

/-- Modelled from the spec: `TLV.D_NETWORK_DATA` (diagnostic-domain
network-data TLV type). -/
def D_NETWORK_DATA : Nat := 4

/-- Modelled from the spec: `TLV.N_SERVICE` (network-data service TLV
type, compared against `tlv.type >> 1`). -/
def N_SERVICE : Nat := 6

/-- `Res_N_MR.ST_SUCESS` (coapserver.py line 113). -/
def ST_SUCESS : Nat := 0

/-- `Res_N_MR.ST_INV_ADDR` (line 114). -/
def ST_INV_ADDR : Nat := 2

/-- `Res_N_MR.ST_RES_SHRT` (line 115). -/
def ST_RES_SHRT : Nat := 4

/-- `Res_N_MR.ST_NOT_PRI` (line 116). -/
def ST_NOT_PRI : Nat := 5

/-- `Res_N_MR.ST_UNSPEC` (line 117). -/
def ST_UNSPEC : Nat := 6

/-- Modelled from the spec: `DEFS.MIN_MLR_TIMEOUT`, the configured
minimum MLR timeout in seconds (kibra/thread.py is not in src/; the
concrete value is irrelevant to the claims settled here beyond being
positive). -/
def MIN_MLR_TIMEOUT : Nat := 300

/-- `NODE_INACTIVE_MS` (diags.py line 30). -/
def NODE_INACTIVE_MS : Int := 90000

/-! ## MulticastHandler (coapserver.py lines 29-106) -/

/-- A value of `self.maddrs`: either a `float` expiry timestamp
`now + addr_tout` or the `datetime.datetime.max` sentinel stored for the
permanent timeout. -/
inductive Tout where
  | finite (t : Int)
  | dtMax
deriving DecidableEq

/-- `self.maddrs`: a Python dict keyed by the compressed address string,
modelled as an insertion-ordered association list with unique keys. -/
abbrev Table := List (String × Tout)

/-- Python `addr in m.keys()`. -/
def dictMem (m : Table) (k : String) : Bool := m.any (fun p => p.1 = k)

/-- Python `m[k] = v`: update in place when the key exists, else append. -/
def dictSet (m : Table) (k : String) (v : Tout) : Table :=
  if dictMem m k then m.map (fun p => if p.1 = k then (k, v) else p) else m ++ [(k, v)]

/-- Python `m.get(k)`. -/
def dictFind (m : Table) (k : String) : Option Tout :=
  (m.find? (fun p => p.1 = k)).map (fun p => p.2)

/-- `MulticastHandler.addr_add` (lines 54-62).  `addr_tout == 0xffffffff`
compares unequal (without raising) when `addr_tout` is not an `int`, and
the clamp `addr_tout < DEFS.MIN_MLR_TIMEOUT` then raises `TypeError` for
a non-`int`; for an `int` the entry is stored under `str(addr)` with
`datetime.datetime.max` for the sentinel and the float
`datetime.datetime.now().timestamp() + addr_tout` otherwise.  The mcproxy
configuration rewrite and process spawn (lines 64-79) are external side
effects outside the embedded state. -/
def addr_add (addr : String) (addr_tout : PyVal) (now : Int) (m : Table) : Except PyErr Table :=
  match addr_tout with
  | .int n =>
    if n = 0xffffffff then .ok (dictSet m addr .dtMax)
    else
      let n' := if n < MIN_MLR_TIMEOUT then MIN_MLR_TIMEOUT else n
      .ok (dictSet m addr (.finite (now + n')))
  | _ => .error .typeError

/-- `MulticastHandler.addr_remove` (lines 84-100).  The code calls
`self.maddrs.popitem(addr)`, but `dict.popitem` takes no arguments in
Python 3, so the call raises `TypeError` before removing anything. -/
def addr_remove (_addr : String) (_m : Table) : Except PyErr Table :=
  .error .typeError

/-- `MulticastHandler.reg_update` (lines 46-52): for each address, add it
when `addr_tout > 0` (a comparison that raises `TypeError` when
`addr_tout` is a byte sequence), else remove it when present.  An
exception leaves the table as the addresses already processed left it.
The `db.set('mlr_cache', ...)` snapshot is an external side effect. -/
def reg_update (addrs : List String) (addr_tout : PyVal) (now : Int) (m : Table) :
    Except PyErr Table :=
  match addrs with
  | [] => .ok m
  | addr :: rest =>
    match pyGtZero addr_tout with
    | .error e => .error e
    | .ok true =>
      match addr_add addr addr_tout now m with
      | .error e => .error e
      | .ok m' => reg_update rest addr_tout now m'
    | .ok false =>
      if dictMem m addr then
        match addr_remove addr m with
        | .error e => .error e
        | .ok m' => reg_update rest addr_tout now m'
      else reg_update rest addr_tout now m

/-- `MulticastHandler.reg_periodic` (lines 102-106).  The loop
`for addr, tout in self.maddrs:` iterates the dict's *keys* and unpacks
each key string into two variables: with any entry present it raises
`ValueError` (key string not of length 2) or, for a 2-character key,
`TypeError` at `tout < now` (comparing `str` with `float`), in either
case before mutating the table. -/
def reg_periodic (m : Table) (_now : Int) : Except PyErr Table :=
  match m with
  | [] => .ok []
  | (k, _) :: _ => if k.length = 2 then .error .typeError else .error .valueError

/-- One scheduler tick of `COAPSERVER.periodic` as the registration table
sees it: the table after calling `reg_periodic`, unchanged when the call
raises (the exception propagates to the scheduler before any mutation). -/
def sweepStep (m : Table) (now : Int) : Table :=
  match reg_periodic m now with
  | .ok m' => m'
  | .error _ => m

/-- The permanent-address loop of `MulticastHandler.__init__` (lines
35-37): `addr_add(addr, datetime.datetime.max)` for each configured
permanent address in turn. -/
def init_load (maddrs_perm : List String) (now : Int) (m : Table) : Except PyErr Table :=
  match maddrs_perm with
  | [] => .ok m
  | addr :: rest =>
    match addr_add addr .dtMax now m with
    | .error e => .error e
    | .ok m' => init_load rest now m'

/-- `MulticastHandler.__init__` (lines 30-37): start from an empty
volatile table and load every permanent address with
`addr_add(addr, datetime.datetime.max)`.  `maddrs_perm` is the
permanent-address list from the external configuration store
(`db.get('maddrs_perm') or []`); the mcproxy file write is external. -/
def handler_init (maddrs_perm : List String) (now : Int) : Except PyErr Table :=
  init_load maddrs_perm now []

/-! ## Res_N_MR (coapserver.py lines 109-188) -/

/-- Is a 16-byte slice kept by `Res_N_MR._parse_addrs` (line 126):
`addr.is_multicast` (first byte `0xff`) and multicast scope field
`tlv.value[i + 1] & 0x0F` greater than 3. -/
def validMcast (c : List Nat) : Bool :=
  c.getD 0 0 = 255 && (c.getD 1 0) &&& 0x0F > 3

/-- `Res_N_MR._parse_addrs` (lines 119-131): walk the value 16 bytes at a
time; `bytes(...)` raises `ValueError` on an item over 255 and
`ipaddress.IPv6Address` raises on a slice shorter than 16 bytes, either
of which the bare `except` turns into `(ST_INV_ADDR, [])`, discarding
every address; otherwise a slice is kept exactly when `validMcast`. -/
def parse_addrs : List Nat → Nat × List (List Nat)
  | [] => (ST_SUCESS, [])
  | b0 :: b1 :: b2 :: b3 :: b4 :: b5 :: b6 :: b7 ::
    b8 :: b9 :: b10 :: b11 :: b12 :: b13 :: b14 :: b15 :: rest =>
    let c := [b0, b1, b2, b3, b4, b5, b6, b7, b8, b9, b10, b11, b12, b13, b14, b15]
    if c.any (fun b => 255 < b) then (ST_INV_ADDR, [])
    else
      match parse_addrs rest with
      | (st, addrs) =>
        if st = ST_INV_ADDR then (ST_INV_ADDR, [])
        else (ST_SUCESS, (if validMcast c then [c] else []) ++ addrs)
  | _ => (ST_INV_ADDR, [])

/-- The 16-byte slices `tlv.value[i:i+16]` of an address-list TLV whose
length is a multiple of 16 (a trailing short slice is not a full slice
and makes `parse_addrs` fail instead). -/
def chunks16 : List Nat → List (List Nat)
  | b0 :: b1 :: b2 :: b3 :: b4 :: b5 :: b6 :: b7 ::
    b8 :: b9 :: b10 :: b11 :: b12 :: b13 :: b14 :: b15 :: rest =>
    [b0, b1, b2, b3, b4, b5, b6, b7, b8, b9, b10, b11, b12, b13, b14, b15] :: chunks16 rest
  | _ => []

/-- The ambient configuration `Res_N_MR.render_post` reads from
`kibra.database` (not in src/, modelled from the spec): the BBR role
string, the configured MLR timeout (`None` when unset) and the computed
all-network-BBRs address. -/
structure Ctx where
  bbrStatus : String
  mlrTimeout : Option Nat
  allNetworkBbrs : String

/-- The loop state of the TLV scan in `render_post` (lines 144-155):
`status` (initialised `ST_UNSPEC` at line 134), the parsed address list,
the raw address-list TLV kept for the notification, and the raw values of
the timeout and commissioner-session-id TLVs. -/
structure ScanState where
  status : Nat
  addrs : List (List Nat)
  addrTlv : Option ThreadTLV
  timeout : PyVal
  comm_sid : PyVal
deriving DecidableEq

/-- One iteration of the `for tlv in ThreadTLV.sub_tlvs(...)` loop of
`Res_N_MR.render_post` (lines 148-155). -/
def scanStep (s : ScanState) (tlv : ThreadTLV) : ScanState :=
  if tlv.t = A_IPV6_ADDRESSES ∧ tlv.length % 16 = 0 then
    let p := parse_addrs tlv.value
    { s with status := p.1, addrs := p.2, addrTlv := some tlv }
  else if tlv.t = A_TIMEOUT ∧ tlv.length = 4 then
    { s with timeout := .bytes tlv.value }
  else if tlv.t = A_COMMISSIONER_SESSION_ID ∧ tlv.length = 2 then
    { s with comm_sid := .bytes tlv.value }
  else s

/-- `struct.pack('!I', v)`: four big-endian bytes of an `int` below
`2 ** 32`; `struct.error` otherwise (in particular for a list). -/
def struct_pack_I : PyVal → Except PyErr (List Nat)
  | .int n =>
    if n < 2 ^ 32 then .ok [n / 2 ^ 24 % 256, n / 2 ^ 16 % 256, n / 2 ^ 8 % 256, n % 256]
    else .error .structError
  | _ => .error .structError

/-- What `Res_N_MR.render_post` produces when it returns: the final
status, the registration table after the request, the notification sent
to the backbone (payload bytes and destination) when one was sent, and
the response payload (the single status TLV). -/
structure RenderResult where
  status : Nat
  maddrs : Table
  notif : Option (List Nat × String)
  resp : List Nat
deriving DecidableEq

/-- `Res_N_MR.render_post` (lines 133-188) over the handler state: decode
the payload for logging (line 137, raising on a malformed buffer), answer
`ST_NOT_PRI` when `'primary' not in db.get('bbr_status')`, otherwise scan
the sub-TLVs, and if any address was parsed pick `addr_tout` — the
*raw timeout TLV value* when both a timeout and a session-id TLV were
seen, else `db.get('mlr_timeout') or DEFS.MIN_MLR_TIMEOUT` — call
`reg_update`, build the BMLR.ntf payload from the stored address-list TLV
plus a packed timeout TLV, and send it to `db.get('all_network_bbrs')`.
The response is always one status TLV. -/
def render_post_n_mr (ctx : Ctx) (m : Table) (now : Int) (payload : List Nat) :
    Except PyErr RenderResult :=
  match decode1 payload with
  | Option.none => .error .malformedTlv
  | some _ =>
    if pyIn "primary" ctx.bbrStatus = false then
      .ok ⟨ST_NOT_PRI, m, Option.none, [A_STATUS, 1, ST_NOT_PRI]⟩
    else
      match sub_tlvs payload with
      | Option.none => .error .malformedTlv
      | some tlvs =>
        let s := tlvs.foldl scanStep ⟨ST_UNSPEC, [], Option.none, .none, .none⟩
        if s.addrs ≠ [] then
          let addr_tout : PyVal :=
            if s.timeout.truthy ∧ s.comm_sid.truthy then s.timeout
            else
              .int (match ctx.mlrTimeout with
                    | some t => if t = 0 then MIN_MLR_TIMEOUT else t
                    | Option.none => MIN_MLR_TIMEOUT)
          match reg_update (s.addrs.map ipv6Str) addr_tout now m with
          | .error e => .error e
          | .ok m' =>
            match struct_pack_I addr_tout with
            | .error e => .error e
            | .ok packed =>
              match s.addrTlv with
              | Option.none => .error .nameError
              | some atlv =>
                .ok ⟨s.status, m',
                     some (atlv.array ++ ThreadTLV.array ⟨A_TIMEOUT, packed⟩,
                           ctx.allNetworkBbrs),
                     [A_STATUS, 1, s.status]⟩
        else .ok ⟨s.status, m, Option.none, [A_STATUS, 1, s.status]⟩

/-! ## Res_B_BMR (coapserver.py lines 191-213) -/

/-- The loop state of the TLV scan in `Res_B_BMR.render_post` (lines
203-209): the parse status of the address-list TLV is discarded
(`_, addrs = ...`). -/
structure ScanBState where
  addrs : List (List Nat)
  timeout : PyVal
deriving DecidableEq

/-- One iteration of the `for tlv in ThreadTLV.sub_tlvs(...)` loop of
`Res_B_BMR.render_post` (lines 205-209). -/
def scanBStep (s : ScanBState) (tlv : ThreadTLV) : ScanBState :=
  if tlv.t = A_IPV6_ADDRESSES ∧ tlv.length % 16 = 0 then
    { s with addrs := (parse_addrs tlv.value).2 }
  else if tlv.t = A_TIMEOUT ∧ tlv.length = 4 then
    { s with timeout := .bytes tlv.value }
  else s

/-- `Res_B_BMR.render_post` (lines 194-213) over the handler state:
decode the payload for logging, ignore the notification entirely when
`'primary' in db.get('bbr_status')`, otherwise scan the address-list and
timeout TLVs and, when both an address parsed and a timeout value is
present, call `reg_update(addrs, timeout)` with the raw timeout bytes.
No response payload and no re-broadcast are produced. -/
def render_post_b_bmr (ctx : Ctx) (m : Table) (now : Int) (payload : List Nat) :
    Except PyErr Table :=
  match decode1 payload with
  | Option.none => .error .malformedTlv
  | some _ =>
    if pyIn "primary" ctx.bbrStatus then .ok m
    else
      match sub_tlvs payload with
      | Option.none => .error .malformedTlv
      | some tlvs =>
        let s := tlvs.foldl scanBStep ⟨[], .none⟩
        if s.addrs ≠ [] ∧ s.timeout.truthy then
          reg_update (s.addrs.map ipv6Str) s.timeout now m
        else .ok m

/-! ## DIAGS Route64 decoding (diags.py lines 145-167) -/

/-- Python `'%04x' % n`: lowercase hex left-padded with zeros to at least
four digits. -/
def hex4 (n : Nat) : String :=
  (List.replicate (4 - (Nat.toDigits 16 n).length) '0' ++ Nat.toDigits 16 n).asString

/-- One entry of `json_node_info['routes']` as `_parse_diags` builds it:
`id = '%u' % router_id`, `target = '%04x' % (router_id << 10)`,
`inCost = '%u' % q_in`. -/
structure RouteEntry where
  id : String
  target : String
  inCost : String
deriving DecidableEq

/-- `int.from_bytes(bs, byteorder='big')`. -/
def beBytes (bs : List Nat) : Nat := bs.foldl (fun a b => a * 256 + b) 0

/-- The router IDs present in a Route64 TLV value, in ascending order
(lines 146-151): the 64-bit mask is `value[1:9]` big endian, and the
comprehension `[63 - i for i, v in enumerate(bin(mask)[:1:-1]) if int(v)][::-1]`
lists `63 - i` for every set bit position `i`, reversed into ascending
router-ID order — equivalently, router ID `r` is present when bit
`63 - r` of the mask integer is set. -/
def routerIdsOf (value : List Nat) : List Nat :=
  let mask := beBytes ((value.drop 1).take 8)
  (List.range 64).filter (fun r => mask.testBit (63 - r))

/-- `qualities = tlv.value[9:]` (line 152). -/
def qualitiesOf (value : List Nat) : List Nat := value.drop 9

/-- `q_out = (router_quality & 0xC0) >> 6` (line 155). -/
def q_out (q : Nat) : Nat := (q &&& 0xC0) >>> 6

/-- `q_in = (router_quality & 0x30) >> 4` (line 156). -/
def q_in (q : Nat) : Nat := (q &&& 0x30) >>> 4

/-- `cost = router_quality & 0x0F` (line 157). -/
def q_cost (q : Nat) : Nat := q &&& 0x0F

/-- The `for router_id in router_ids` loop of `_parse_diags` (lines
153-167): pop one quality byte per present router ID (`IndexError` when
the bytes run out); with nonzero incoming and outgoing quality append a
route entry and add its target to `self.nodes_list` when absent; with
zero in/out quality and cost 1 set `json_node_info['id']` (last writer
wins). -/
def r64go : List Nat → List Nat → List RouteEntry → List String → Option String →
    Except PyErr (List RouteEntry × List String × Option String)
  | [], _, routes, nodes, selfid => .ok (routes, nodes, selfid)
  | rid :: rids, qs, routes, nodes, selfid =>
    match qs with
    | [] => .error .indexError
    | q :: qs' =>
      if q_in q ≠ 0 ∧ q_out q ≠ 0 then
        let target := hex4 (rid <<< 10)
        let routes' := routes ++ [⟨toString rid, target, toString (q_in q)⟩]
        let nodes' := if target ∈ nodes then nodes else nodes ++ [target]
        r64go rids qs' routes' nodes' selfid
      else if q_in q = 0 ∧ q_out q = 0 ∧ q_cost q = 1 then
        r64go rids qs' routes nodes (some (toString rid))
      else r64go rids qs' routes nodes selfid

/-- The Route64 branch of `DIAGS._parse_diags` (lines 145-167) acting on
a fresh `json_node_info` (`routes = []`, `id` unset) and the current
crawl worklist `self.nodes_list`: returns the recorded route entries, the
updated worklist and the node's own router ID when identified. -/
def parse_route64 (value : List Nat) (nodes_list : List String) :
    Except PyErr (List RouteEntry × List String × Option String) :=
  r64go (routerIdsOf value) (qualitiesOf value) [] nodes_list Option.none

/-! ## DIAGS._mark_old_nodes (diags.py lines 235-246) -/

/-- The fields of a `DIAGS_DB['nodes']` record that `_mark_old_nodes`
reads or writes (`rloc16`, `active`, `lastSeen`); the other diagnostic
fields are untouched by it. -/
structure NodeRec where
  rloc16 : String
  active : String
  lastSeen : Int
deriving DecidableEq

/-- `DIAGS._mark_old_nodes` (lines 235-246): for every record still
`active`, when `now - lastSeen > NODE_INACTIVE_MS` set `active = 'no'`
in place (the record is not deleted) and rebuild `self.nodes_list`
keeping the entries `n` with `n not in node['rloc16']` (Python substring
membership). -/
def mark_old_nodes (now : Int) : List NodeRec → List String → List NodeRec × List String
  | [], wl => ([], wl)
  | node :: ns, wl =>
    if node.active = "yes" ∧ now - node.lastSeen > NODE_INACTIVE_MS then
      let wl' := wl.filter (fun n => ! pyIn n node.rloc16)
      let r := mark_old_nodes now ns wl'
      ({ node with active := "no" } :: r.1, r.2)
    else
      let r := mark_old_nodes now ns wl
      (node :: r.1, r.2)

/-! ## DIAGS._parse_net_data (diags.py lines 281-305) -/

/-- The body of the `for tlv in sub_tlvs` loop of `_parse_net_data`
(lines 288-302) for one network-data sub-TLV: `ok (some "primary")` when
the loop returns after setting the role, `ok none` when it falls through
to the next TLV, an error when an index or decode raises.  The service
check is `tlv.type >> 1 is TLV.N_SERVICE`; the BBR-dataset check
`tlv.value[0] >> 7 and tlv.value[1] is 1 and tlv.value[2] is 1`
short-circuits, so a missing byte raises `IndexError` only when the
preceding conjuncts were truthy; with exactly one Server sub-TLV the role
is primary when `IPv6Address(db.get('dongle_rloc')).packed[14:16]` equals
the server TLV value's first two bytes. -/
def scanOne (node_rloc : List Nat) (tlv : ThreadTLV) : Except PyErr (Option String) :=
  if tlv.t >>> 1 = N_SERVICE then
    match tlv.value with
    | [] => .error .indexError
    | v0 :: vrest =>
      if v0 >>> 7 ≠ 0 then
        match vrest with
        | [] => .error .indexError
        | v1 :: vrest2 =>
          if v1 = 1 then
            match vrest2 with
            | [] => .error .indexError
            | v2 :: _ =>
              if v2 = 1 then
                match sub_tlvs (tlv.value.drop 3) with
                | Option.none => .error .malformedTlv
                | some [s] =>
                  if (node_rloc.drop 14).take 2 = s.value.take 2 then .ok (some "primary")
                  else .ok Option.none
                | some _ => .ok Option.none
              else .ok Option.none
          else .ok Option.none
      else .ok Option.none
  else .ok Option.none

/-- The `for tlv in sub_tlvs` loop of `_parse_net_data` (lines 288-302):
return `"primary"` from the first matching service TLV, else fall off the
loop and set `"secondary"` (lines 303-305). -/
def netDataScan (node_rloc : List Nat) : List ThreadTLV → Except PyErr String
  | [] => .ok "secondary"
  | tlv :: rest =>
    match scanOne node_rloc tlv with
    | .error e => .error e
    | .ok (some s) => .ok s
    | .ok Option.none => netDataScan node_rloc rest

/-- The first loop of `_parse_net_data` (lines 282-286) threaded over the
running `sub_tlvs` accumulator. -/
def netDataSubsGo (acc : List ThreadTLV) : List ThreadTLV → Except PyErr (List ThreadTLV)
  | [] => .ok acc
  | tlv :: rest =>
    if tlv.t = D_NETWORK_DATA then
      match sub_tlvs tlv.value with
      | Option.none => .error .malformedTlv
      | some s => netDataSubsGo s rest
    else netDataSubsGo acc rest

/-- The first loop of `_parse_net_data` (lines 282-286): `sub_tlvs`
starts as `[]` and each `D_NETWORK_DATA` TLV replaces it with its decoded
sub-TLVs (the last one wins). -/
def netDataSubs (tlvs : List ThreadTLV) : Except PyErr (List ThreadTLV) :=
  netDataSubsGo [] tlvs

/-- `DIAGS._parse_net_data` (lines 281-305) as a function of the raw
response payload and the packed local RLOC address: the BBR role string
it stores into `db.set('bbr_status', ...)`. -/
def parse_net_data (payload : List Nat) (node_rloc : List Nat) : Except PyErr String :=
  match sub_tlvs payload with
  | Option.none => .error .malformedTlv
  | some tlvs =>
    match netDataSubs tlvs with
    | .error e => .error e
    | .ok subs => netDataScan node_rloc subs

/-- The route entry the Route64 loop records for the pair of a present
router ID and its quality byte: one exactly when both the incoming and
the outgoing quality are nonzero. -/
def routeOf (p : Nat × Nat) : Option RouteEntry :=
  if q_in p.2 ≠ 0 ∧ q_out p.2 ≠ 0 then
    some ⟨toString p.1, hex4 (p.1 <<< 10), toString (q_in p.2)⟩
  else Option.none

/-- The condition under which the Route64 loop identifies a router ID as
the local node's own: zero incoming and outgoing quality and cost 1. -/
def selfCond (q : Nat) : Prop := q_in q = 0 ∧ q_out q = 0 ∧ q_cost q = 1

/-- The claim's wording of the Primary condition, for comparison with the
code: the network-data sub-TLV is a Service TLV carrying the BBR-dataset
encoding, its dataset holds exactly one Server sub-TLV, and that server's
encoded RLOC16 equals the last two bytes of the local RLOC address. -/
def PrimaryDataset (node_rloc : List Nat) (tlv : ThreadTLV) : Prop :=
  tlv.t >>> 1 = N_SERVICE ∧
  ∃ v0 v1 v2 r, tlv.value = v0 :: v1 :: v2 :: r ∧ v0 >>> 7 ≠ 0 ∧ v1 = 1 ∧ v2 = 1 ∧
    ∃ s, sub_tlvs r = some [s] ∧ (node_rloc.drop 14).take 2 = s.value.take 2

/-! ## Concrete inputs for the settled claims -/

/-- The multicast address `ff05::1` (site-local scope 5), packed. -/
def addr_ff05_1 : List Nat := [0xff, 0x05, 0, 0, 0, 0, 0, 0, 0, 0, 0, 0, 0, 0, 0, 1]

/-- The unicast address `fd00::1`, packed: a well-formed 16-byte slice
that fails the multicast/scope validation. -/
def addr_unicast : List Nat := [0xfd, 0, 0, 0, 0, 0, 0, 0, 0, 0, 0, 0, 0, 0, 0, 1]

/-- A registration request payload: address list `[ff05::1]`, 4-byte
timeout TLV of value 20, and a commissioner-session-id TLV. -/
def mlrPayloadFull : List Nat :=
  ThreadTLV.array ⟨A_IPV6_ADDRESSES, addr_ff05_1⟩ ++
  ThreadTLV.array ⟨A_TIMEOUT, [0, 0, 0, 20]⟩ ++
  ThreadTLV.array ⟨A_COMMISSIONER_SESSION_ID, [0, 1]⟩

/-- A registration request payload with the address list only. -/
def mlrPayloadNoTimeout : List Nat := ThreadTLV.array ⟨A_IPV6_ADDRESSES, addr_ff05_1⟩

/-- A registration request payload whose only address fails validation. -/
def mlrPayloadUnicast : List Nat := ThreadTLV.array ⟨A_IPV6_ADDRESSES, addr_unicast⟩

/-- A backbone notification payload: address list `[ff05::1]` plus a
4-byte timeout TLV. -/
def bmrPayload : List Nat :=
  ThreadTLV.array ⟨A_IPV6_ADDRESSES, addr_ff05_1⟩ ++ ThreadTLV.array ⟨A_TIMEOUT, [0, 0, 0, 20]⟩

/-- A Primary-role context with no configured `mlr_timeout`. -/
def ctxPrimary : Ctx := ⟨"primary", Option.none, "ff32:40:2001:db8::3"⟩

/-- A Secondary-role context. -/
def ctxSecondary : Ctx := ⟨"secondary", Option.none, "ff32:40:2001:db8::3"⟩

/-- The multicast address `ff02::1` (link-local scope 2), packed: a
multicast address whose scope fails the `> 3` validation. -/
def addr_ff02_1 : List Nat := [0xff, 0x02, 0, 0, 0, 0, 0, 0, 0, 0, 0, 0, 0, 0, 0, 1]

/-- A registration request payload whose address-list TLV holds two
well-formed 16-byte slices, both failing the multicast/scope validation
(a unicast address and a link-local-scope multicast address). -/
def mlrPayloadAllInvalid : List Nat :=
  ThreadTLV.array ⟨A_IPV6_ADDRESSES, addr_unicast ++ addr_ff02_1⟩

/-- A Route64 TLV value: ID sequence 0, presence bitmask with router IDs
0 and 5 set (mask byte `0x84`), quality byte `0x76` for router 0
(out 1, in 3, cost 6) and `0x01` for router 5 (out 0, in 0, cost 1). -/
def route64Sample : List Nat := [0, 0x84, 0, 0, 0, 0, 0, 0, 0, 0x76, 0x01]

/-- The packed local RLOC address ending in the RLOC16 `0x1234`. -/
def rlocSample : List Nat := [0xfd, 0, 0, 0, 0, 0, 0, 0, 0, 0, 0, 0xff, 0xfe, 0, 0x12, 0x34]

/-- A network-data diagnostic response: one `D_NETWORK_DATA` TLV holding
one Service TLV (type 12 = `N_SERVICE << 1`) with the BBR-dataset
encoding and one Server sub-TLV whose value starts with `0x12 0x34`. -/
def netDataSample : List Nat := [4, 9, 12, 7, 0x80, 1, 1, 6, 2, 0x12, 0x34]

/-- The Service sub-TLV `netDataSample` carries. -/
def serviceSample : ThreadTLV := ⟨12, [0x80, 1, 1, 6, 2, 0x12, 0x34]⟩

/-! ## The claims -/

/-- C1: the claim says a Primary handles a registration carrying address
list, timeout TLV and session-id TLV by registering each address with
expiry `now + timeout` and notifying the backbone with status Success.
The code instead stores the timeout TLV's raw byte list into `timeout`
(line 153) and hands it to `reg_update` unconverted (lines 160, 163),
where `addr_tout > 0` raises `TypeError`: the request crashes, registers
nothing and sends nothing.  Only the fallback path without the
timeout/session-id pair (second statement) behaves as claimed, using
`db.get('mlr_timeout') or DEFS.MIN_MLR_TIMEOUT` and clamping in
`addr_add`. -/
theorem C1_request_timeout_raw_bytes :
    render_post_n_mr ctxPrimary [] 1000 mlrPayloadFull = .error .typeError ∧
    render_post_n_mr ctxPrimary [] 1000 mlrPayloadNoTimeout =
      .ok ⟨ST_SUCESS, [("ff05::1", Tout.finite 1300)],
           some (ThreadTLV.array ⟨A_IPV6_ADDRESSES, addr_ff05_1⟩ ++ [A_TIMEOUT, 4, 0, 0, 1, 44],
                 ctxPrimary.allNetworkBbrs),
           [A_STATUS, 1, ST_SUCESS]⟩ := by
  constructor
  · simp only [render_post_n_mr, mlrPayloadFull, ctxPrimary, ThreadTLV.array, addr_ff05_1]
    simp [sub_tlvs, decode1, pyIn]
    rfl
  · simp only [render_post_n_mr, mlrPayloadNoTimeout, ctxPrimary, ThreadTLV.array, addr_ff05_1]
    simp [sub_tlvs, decode1, pyIn]
    rfl

/-- C2: a registration request received while the role is not Primary is
answered with the single status TLV `NotPrimary`; the table is returned
unchanged and no notification is produced. -/
theorem C2_not_primary_rejects (ctx : Ctx) (m : Table) (now : Int) (payload : List Nat)
    (tlv : ThreadTLV) (hrole : pyIn "primary" ctx.bbrStatus = false)
    (hdec : decode1 payload = some tlv) :
    render_post_n_mr ctx m now payload =
      .ok ⟨ST_NOT_PRI, m, Option.none, [A_STATUS, 1, ST_NOT_PRI]⟩ := by
  unfold render_post_n_mr
  rw [hdec, hrole]
  rfl

/-- C2 witness: a Secondary answers the concrete registration request
with `NotPrimary`, an untouched table and no notification. -/
theorem C2_not_primary_rejects_witness :
    render_post_n_mr ctxSecondary [("ff05::1", Tout.finite 5)] 1000 mlrPayloadFull =
      .ok ⟨ST_NOT_PRI, [("ff05::1", Tout.finite 5)], Option.none, [A_STATUS, 1, ST_NOT_PRI]⟩ :=
  C2_not_primary_rejects ctxSecondary [("ff05::1", Tout.finite 5)] 1000 mlrPayloadFull
    ⟨A_IPV6_ADDRESSES, addr_ff05_1⟩ (by decide) (by decide)

/-- C4: the claim says the periodic sweep removes exactly the expired
entries.  The code's `for addr, tout in self.maddrs:` iterates the dict's
keys and unpacks each key string, raising `ValueError` on any table with
an entry (and `addr_remove` itself would raise `TypeError`, `popitem`
taking no argument), so a sweep never removes anything: sweeping an entry
that expired at 5 at time 1000 leaves the table unchanged. -/
theorem C4_sweep_raises_and_removes_nothing :
    reg_periodic [("ff05::1", Tout.finite 5)] 1000 = .error .valueError ∧
    sweepStep [("ff05::1", Tout.finite 5)] 1000 = [("ff05::1", Tout.finite 5)] ∧
    addr_remove "ff05::1" [("ff05::1", Tout.finite 5)] = .error .typeError := by decide

/-- C5: registering the sentinel timeout `0xffffffff` stores the
unbounded `datetime.max` expiry, and no sweep ever removes any entry (the
sweep raises before mutating, so the permanent entry trivially survives
every tick); but the startup load of the permanent-address list crashes:
`__init__` passes `datetime.datetime.max` itself as the timeout, and
`addr_add`'s clamp comparison with `MIN_MLR_TIMEOUT` raises `TypeError`,
so no permanent address is ever loaded. -/
theorem C5_permanent_sentinel_and_startup :
    addr_add "ff05::1" (.int 0xffffffff) 1000 [] = .ok [("ff05::1", Tout.dtMax)] ∧
    (∀ (m : Table) (now : Int), sweepStep m now = m) ∧
    handler_init ["ff05::2"] 1000 = .error .typeError := by
  refine ⟨by decide, ?_, by decide⟩
  intro m now
  cases m with
  | nil => rfl
  | cons p rest =>
    obtain ⟨k, v⟩ := p
    by_cases hk : k.length = 2 <;> simp [sweepStep, reg_periodic, hk]

/-- C6: a backbone notification is ignored by a Primary (no table
mutation); but on a Secondary the claim's registration path crashes for
the same reason as C1: `timeout` holds the raw TLV byte list (line 209)
and `reg_update` raises `TypeError` on `addr_tout > 0`, so nothing is
registered. -/
theorem C6_backbone_notification :
    render_post_b_bmr ctxPrimary [("ff05::1", Tout.finite 2000)] 1000 bmrPayload =
      .ok [("ff05::1", Tout.finite 2000)] ∧
    render_post_b_bmr ctxSecondary [] 1000 bmrPayload = .error .typeError := by
  constructor
  · simp only [render_post_b_bmr, bmrPayload, ctxPrimary, ThreadTLV.array, addr_ff05_1]
    simp [decode1, pyIn]
  · simp only [render_post_b_bmr, bmrPayload, ctxSecondary, ThreadTLV.array, addr_ff05_1]
    simp [sub_tlvs, decode1, pyIn]
    rfl

/-! ## Lemmas about `_parse_addrs` and the registration table -/

/-- A list of at least 8 elements splits off its first 8. -/
theorem cons8_exists (t : List Nat) (h : 8 ≤ t.length) :
    ∃ b0 b1 b2 b3 b4 b5 b6 b7 rest,
      t = b0 :: b1 :: b2 :: b3 :: b4 :: b5 :: b6 :: b7 :: rest := by
  rcases t with _ | ⟨b0, _ | ⟨b1, _ | ⟨b2, _ | ⟨b3, _ | ⟨b4, _ | ⟨b5, _ | ⟨b6, _ | ⟨b7,
    rest⟩⟩⟩⟩⟩⟩⟩⟩
  any_goals exact ⟨_, _, _, _, _, _, _, _, _, rfl⟩
  all_goals simp only [List.length_nil, List.length_cons] at h
  all_goals omega

/-- A list of at least 16 elements splits off its first 16. -/
theorem cons16_exists (t : List Nat) (h : 16 ≤ t.length) :
    ∃ b0 b1 b2 b3 b4 b5 b6 b7 b8 b9 b10 b11 b12 b13 b14 b15 rest,
      t = b0 :: b1 :: b2 :: b3 :: b4 :: b5 :: b6 :: b7 ::
          b8 :: b9 :: b10 :: b11 :: b12 :: b13 :: b14 :: b15 :: rest := by
  obtain ⟨b0, b1, b2, b3, b4, b5, b6, b7, t1, rfl⟩ := cons8_exists t (by omega)
  have h1 : 8 ≤ t1.length := by simp only [List.length_cons] at h; omega
  obtain ⟨b8, b9, b10, b11, b12, b13, b14, b15, t2, rfl⟩ := cons8_exists t1 h1
  exact ⟨_, _, _, _, _, _, _, _, _, _, _, _, _, _, _, _, _, rfl⟩

/-- Every address `_parse_addrs` returns passed the multicast/scope
validation: an invalid slice is never kept. -/
theorem parse_addrs_valid (v : List Nat) :
    ∀ c ∈ (parse_addrs v).2, validMcast c = true := by
  induction v using parse_addrs.induct with
  | case1 => simp [parse_addrs]
  | case2 b0 b1 b2 b3 b4 b5 b6 b7 b8 b9 b10 b11 b12 b13 b14 b15 rest c h =>
    simp [parse_addrs, h]
  | case3 b0 b1 b2 b3 b4 b5 b6 b7 b8 b9 b10 b11 b12 b13 b14 b15 rest c h addrs heq ih =>
    simp [parse_addrs, h, heq]
  | case4 b0 b1 b2 b3 b4 b5 b6 b7 b8 b9 b10 b11 b12 b13 b14 b15 rest c h st addrs heq hst ih =>
    rw [heq] at ih
    simp only [parse_addrs, h, heq, hst, Bool.false_eq_true, if_false]
    intro x hx
    rcases List.mem_append.mp hx with hx | hx
    · by_cases hv : validMcast [b0, b1, b2, b3, b4, b5, b6, b7, b8, b9, b10, b11, b12, b13,
        b14, b15] = true
      · simp only [hv, if_true, List.mem_singleton] at hx
        subst hx
        exact hv
      · simp [hv] at hx
    · exact ih x hx
  | case5 t hnil hcons =>
    rw [parse_addrs.eq_def]
    split
    · simp
    · exact (hcons _ _ _ _ _ _ _ _ _ _ _ _ _ _ _ _ _ rfl).elim
    · simp

/-- On a value whose length is a multiple of 16 and whose items are all
bytes, `_parse_addrs` raises nothing: it returns `ST_SUCESS` and exactly
the 16-byte slices that pass the multicast/scope validation, silently
filtering the rest. -/
theorem parse_addrs_wellformed (v : List Nat) (hlen : v.length % 16 = 0)
    (hbytes : ∀ b ∈ v, b < 256) :
    parse_addrs v = (ST_SUCESS, (chunks16 v).filter validMcast) := by
  induction v using parse_addrs.induct with
  | case1 => simp [parse_addrs, chunks16]
  | case2 b0 b1 b2 b3 b4 b5 b6 b7 b8 b9 b10 b11 b12 b13 b14 b15 rest c h =>
    exfalso
    rw [List.any_eq_true] at h
    obtain ⟨b, hb, hgt⟩ := h
    have hble : b < 256 := hbytes b (List.mem_append_left rest hb)
    simp only [decide_eq_true_eq] at hgt
    omega
  | case3 b0 b1 b2 b3 b4 b5 b6 b7 b8 b9 b10 b11 b12 b13 b14 b15 rest c h addrs heq ih =>
    exfalso
    have hrest : parse_addrs rest = (ST_SUCESS, (chunks16 rest).filter validMcast) := by
      apply ih
      · simp only [List.length_cons] at hlen
        omega
      · intro b hb
        exact hbytes b (List.mem_append_right c hb)
    rw [hrest] at heq
    have hbad : ST_SUCESS = ST_INV_ADDR := congrArg Prod.fst heq
    simp [ST_SUCESS, ST_INV_ADDR] at hbad
  | case4 b0 b1 b2 b3 b4 b5 b6 b7 b8 b9 b10 b11 b12 b13 b14 b15 rest c h st addrs heq hst ih =>
    have hrest : parse_addrs rest = (ST_SUCESS, (chunks16 rest).filter validMcast) := by
      apply ih
      · simp only [List.length_cons] at hlen
        omega
      · intro b hb
        exact hbytes b (List.mem_append_right c hb)
    rw [hrest] at heq
    cases heq
    simp only [parse_addrs, h, Bool.false_eq_true, if_false, hrest, chunks16, List.filter_cons]
    simp only [ST_SUCESS, ST_INV_ADDR]
    by_cases hv : validMcast [b0, b1, b2, b3, b4, b5, b6, b7, b8, b9, b10, b11, b12, b13,
      b14, b15] = true <;> simp [hv]
  | case5 t hnil hcons =>
    exfalso
    have hne : t ≠ [] := fun hh => hnil hh
    have hpos : 0 < t.length := List.length_pos.mpr hne
    have h16 : 16 ≤ t.length := by omega
    obtain ⟨b0, b1, b2, b3, b4, b5, b6, b7, b8, b9, b10, b11, b12, b13, b14, b15, rest, hh⟩ :=
      cons16_exists t h16
    exact hcons b0 b1 b2 b3 b4 b5 b6 b7 b8 b9 b10 b11 b12 b13 b14 b15 rest hh

/-- A key present after `dictSet` was present before or is the key just
set. -/
theorem dictMem_dictSet (m : Table) (k k' : String) (v : Tout)
    (h : dictMem (dictSet m k v) k' = true) : dictMem m k' = true ∨ k' = k := by
  unfold dictSet at h
  split at h
  · simp only [dictMem, List.any_map, List.any_eq_true, Function.comp] at h ⊢
    obtain ⟨p, hp, hpk⟩ := h
    by_cases hk : p.1 = k
    · simp only [hk, if_true, decide_eq_true_eq] at hpk
      exact Or.inr hpk.symm
    · simp only [hk, if_false, decide_eq_true_eq] at hpk
      exact Or.inl ⟨p, hp, by simp [hpk]⟩
  · simp only [dictMem, List.any_append, List.any_cons, List.any_nil,
      Bool.or_eq_true, Bool.or_false, decide_eq_true_eq] at h
    rcases h with h | h
    · exact Or.inl (by simpa [dictMem] using h)
    · exact Or.inr h.symm

theorem reg_update_mem (addrs : List String) (tout : PyVal) (now : Int) (m m' : Table)
    (k : String) (h : reg_update addrs tout now m = .ok m') (hk : dictMem m' k = true) :
    dictMem m k = true ∨ k ∈ addrs := by
  induction addrs generalizing m with
  | nil =>
    simp only [reg_update] at h
    cases h
    exact Or.inl hk
  | cons addr rest ih =>
    simp only [reg_update, pyGtZero] at h
    cases tout with
    | int n =>
      by_cases hn : 0 < n
      · simp only [show decide (0 < n) = true from by simp [hn], addr_add] at h
        by_cases hs : n = 0xffffffff
        · rw [if_pos hs] at h
          rcases ih _ h with hmem | hrest
          · rcases dictMem_dictSet _ _ _ _ hmem with hmem' | hkk
            · exact Or.inl hmem'
            · exact Or.inr (by simp [hkk])
          · exact Or.inr (List.mem_cons_of_mem _ hrest)
        · rw [if_neg hs] at h
          rcases ih _ h with hmem | hrest
          · rcases dictMem_dictSet _ _ _ _ hmem with hmem' | hkk
            · exact Or.inl hmem'
            · exact Or.inr (by simp [hkk])
          · exact Or.inr (List.mem_cons_of_mem _ hrest)
      · simp only [show decide (0 < n) = false from by simp [hn], addr_remove] at h
        split at h
        · simp at h
        · rcases ih _ h with hmem | hrest
          · exact Or.inl hmem
          · exact Or.inr (List.mem_cons_of_mem _ hrest)
    | none => simp at h
    | bytes bs => simp at h
    | dtMax => simp at h

/-- The addresses the `render_post` scan ends with either are the loop
state's initial ones or come from `_parse_addrs` on one of the scanned
TLVs. -/
theorem scan_addrs_sources (tlvs : List ThreadTLV) (s0 : ScanState) :
    (tlvs.foldl scanStep s0).addrs = s0.addrs ∨
    ∃ tlv ∈ tlvs, (tlvs.foldl scanStep s0).addrs = (parse_addrs tlv.value).2 := by
  induction tlvs generalizing s0 with
  | nil => exact Or.inl rfl
  | cons tlv rest ih =>
    rw [List.foldl_cons]
    rcases ih (scanStep s0 tlv) with h | ⟨tlv', htlv', h⟩
    · rw [h]
      unfold scanStep
      split
      · exact Or.inr ⟨tlv, List.mem_cons_self .., rfl⟩
      · split
        · exact Or.inl rfl
        · split
          · exact Or.inl rfl
          · exact Or.inl rfl
    · exact Or.inr ⟨tlv', List.mem_cons_of_mem _ htlv', h⟩

/-- Any key newly present in the table after a normal `render_post` run
is the compressed string of an address that passed the multicast/scope
validation. -/
theorem render_maddrs_from_valid (ctx : Ctx) (m : Table) (now : Int) (payload : List Nat)
    (r : RenderResult) (k : String) (h : render_post_n_mr ctx m now payload = .ok r)
    (hk : dictMem r.maddrs k = true) :
    dictMem m k = true ∨ ∃ c, validMcast c = true ∧ k = ipv6Str c := by
  unfold render_post_n_mr at h
  split at h
  · simp at h
  · split at h
    · cases h
      exact Or.inl hk
    · split at h
      · simp at h
      · next tlvs heq =>
        generalize hS : List.foldl scanStep
          ⟨ST_UNSPEC, [], Option.none, PyVal.none, PyVal.none⟩ tlvs = S at h
        dsimp only at h
        split at h
        · split at h
          · simp at h
          · next m2 hreg =>
            split at h
            · simp at h
            · split at h
              · simp at h
              · cases h
                rcases reg_update_mem _ _ _ _ _ _ hreg hk with hmem | hinc
                · exact Or.inl hmem
                · rcases List.mem_map.mp hinc with ⟨c, hc, hck⟩
                  refine Or.inr ⟨c, ?_, hck.symm⟩
                  rcases scan_addrs_sources tlvs
                    ⟨ST_UNSPEC, [], Option.none, PyVal.none, PyVal.none⟩ with
                    hempty | ⟨tlv, _, hsrc⟩
                  · rw [hS] at hempty
                    rw [hempty] at hc
                    simp at hc
                  · rw [hS] at hsrc
                    rw [hsrc] at hc
                    exact parse_addrs_valid _ c hc
        · cases h
          exact Or.inl hk

/-- A TLV that is not an address-list TLV of well-formed length leaves
the scan state's `status` and `addrs` untouched. -/
theorem scanStep_not_addr (s0 : ScanState) (tlv : ThreadTLV)
    (h : ¬(tlv.t = A_IPV6_ADDRESSES ∧ tlv.length % 16 = 0)) :
    (scanStep s0 tlv).addrs = s0.addrs ∧ (scanStep s0 tlv).status = s0.status := by
  unfold scanStep
  rw [if_neg h]
  split
  · exact ⟨rfl, rfl⟩
  · split
    · exact ⟨rfl, rfl⟩
    · exact ⟨rfl, rfl⟩

/-- When every address-list TLV of the request parses to an empty address
list with `ST_SUCESS`, the scan ends with no addresses and with status
`ST_SUCESS` exactly when an address-list TLV was present. -/
theorem scan_filtered (tlvs : List ThreadTLV) (s0 : ScanState)
    (hall : ∀ tlv ∈ tlvs, tlv.t = A_IPV6_ADDRESSES → tlv.length % 16 = 0 →
      parse_addrs tlv.value = (ST_SUCESS, []))
    (h0 : s0.addrs = []) :
    (tlvs.foldl scanStep s0).addrs = [] ∧
    (tlvs.foldl scanStep s0).status =
      (if tlvs.any (fun tlv => tlv.t == A_IPV6_ADDRESSES && tlv.length % 16 == 0)
       then ST_SUCESS else s0.status) := by
  induction tlvs generalizing s0 with
  | nil => simpa using h0
  | cons tlv rest ih =>
    rw [List.foldl_cons, List.any_cons]
    by_cases ht : tlv.t = A_IPV6_ADDRESSES ∧ tlv.length % 16 = 0
    · have hp := hall tlv (List.mem_cons_self ..) ht.1 ht.2
      have hstep : scanStep s0 tlv =
          { s0 with status := ST_SUCESS, addrs := [], addrTlv := some tlv } := by
        unfold scanStep
        rw [if_pos ht, hp]
      obtain ⟨ha, hs⟩ := ih (scanStep s0 tlv)
        (fun tlv2 h2 => hall tlv2 (List.mem_cons_of_mem _ h2)) (by rw [hstep])
      refine ⟨ha, ?_⟩
      rw [hs, hstep]
      have hb : (tlv.t == A_IPV6_ADDRESSES && tlv.length % 16 == 0) = true := by
        simp [ht.1, ht.2]
      rw [hb, Bool.true_or]
      split <;> rfl
    · have hstep := scanStep_not_addr s0 tlv ht
      obtain ⟨ha, hs⟩ := ih (scanStep s0 tlv)
        (fun tlv2 h2 => hall tlv2 (List.mem_cons_of_mem _ h2)) (by rw [hstep.1, h0])
      refine ⟨ha, ?_⟩
      rw [hs, hstep.2]
      have hb : (tlv.t == A_IPV6_ADDRESSES && tlv.length % 16 == 0) = false := by
        rcases Decidable.not_and_iff_or_not.mp ht with h1 | h1 <;> simp [h1]
      rw [hb, Bool.false_or]

/-- When the payload's sub-TLV scan succeeds with at least one TLV, the
single-TLV decode of line 137 succeeds as well. -/
theorem decode1_of_sub_tlvs (payload : List Nat) (tlvs : List ThreadTLV)
    (h : sub_tlvs payload = some tlvs) (hne : tlvs ≠ []) :
    ∃ d, decode1 payload = some d := by
  match payload with
  | [] =>
    simp only [sub_tlvs, Option.some.injEq] at h
    exact absurd h.symm hne
  | [x] => simp [sub_tlvs] at h
  | t :: l :: rest =>
    simp only [sub_tlvs] at h
    split at h
    · exact ⟨⟨t, rest.take l⟩, by simp [decode1, *]⟩
    · simp at h

/-- C3 counterexample: a Primary receiving an address-list TLV holding
one well-formed unicast address — the whole list fails validation — still
answers `ST_SUCESS` (0), not `ST_INV_ADDR` (2), contradicting the claim
that a present-but-invalid address list yields `InvalidAddress`. -/
theorem C3_invalid_list_gets_success :
    render_post_n_mr ctxPrimary [] 1000 mlrPayloadUnicast =
      .ok ⟨ST_SUCESS, [], Option.none, [A_STATUS, 1, ST_SUCESS]⟩ ∧
    ST_SUCESS ≠ ST_INV_ADDR := by
  constructor
  · simp only [render_post_n_mr, mlrPayloadUnicast, ctxPrimary, ThreadTLV.array, addr_unicast]
    simp [sub_tlvs, decode1, pyIn]
    rfl
  · decide

/-- C3 as amended: an address failing the multicast/scope validation is
never kept by `_parse_addrs` and never enters the registration table; and
an address-list TLV whose slices are all well-formed 16-byte addresses
parses with status `ST_SUCESS`, the failing addresses silently filtered
out rather than producing `ST_INV_ADDR` (which arises only from a parse
exception). -/
theorem C3_invalid_never_stored_amended :
    (∀ v : List Nat, ∀ c ∈ (parse_addrs v).2, validMcast c = true) ∧
    (∀ (ctx : Ctx) (m : Table) (now : Int) (payload : List Nat) (r : RenderResult) (k : String),
      render_post_n_mr ctx m now payload = .ok r → dictMem r.maddrs k = true →
      dictMem m k = true ∨ ∃ c, validMcast c = true ∧ k = ipv6Str c) ∧
    (∀ v : List Nat, v.length % 16 = 0 → (∀ b ∈ v, b < 256) →
      parse_addrs v = (ST_SUCESS, (chunks16 v).filter validMcast)) :=
  ⟨parse_addrs_valid,
   fun ctx m now payload r k h hk => render_maddrs_from_valid ctx m now payload r k h hk,
   parse_addrs_wellformed⟩

/-- C10: a Primary receiving a request whose address-list TLV is made of
well-formed 16-byte slices that all fail the multicast/scope validation
answers Success (0), registers nothing and sends no notification: the
invalid addresses are silently filtered, not reported as
`InvalidAddress`. -/
theorem C10_all_invalid_filtered_success (ctx : Ctx) (m : Table) (now : Int)
    (payload : List Nat) (tlvs : List ThreadTLV)
    (hrole : pyIn "primary" ctx.bbrStatus = true)
    (hsub : sub_tlvs payload = some tlvs)
    (hex : ∃ tlv ∈ tlvs, tlv.t = A_IPV6_ADDRESSES ∧ tlv.length % 16 = 0)
    (hall : ∀ tlv ∈ tlvs, tlv.t = A_IPV6_ADDRESSES → tlv.length % 16 = 0 →
      (∀ b ∈ tlv.value, b < 256) ∧ ∀ c ∈ chunks16 tlv.value, validMcast c = false) :
    render_post_n_mr ctx m now payload =
      .ok ⟨ST_SUCESS, m, Option.none, [A_STATUS, 1, ST_SUCESS]⟩ := by
  have hne : tlvs ≠ [] := by
    rcases hex with ⟨tlv, ht, _⟩
    exact List.ne_nil_of_mem ht
  obtain ⟨d, hdec⟩ := decode1_of_sub_tlvs payload tlvs hsub hne
  have hparse : ∀ tlv ∈ tlvs, tlv.t = A_IPV6_ADDRESSES → tlv.length % 16 = 0 →
      parse_addrs tlv.value = (ST_SUCESS, []) := by
    intro tlv ht h1 h2
    obtain ⟨hb, hc⟩ := hall tlv ht h1 h2
    rw [parse_addrs_wellformed tlv.value h2 hb]
    have hnil : (chunks16 tlv.value).filter validMcast = [] := by
      rw [List.filter_eq_nil_iff]
      intro c hcmem
      simp [hc c hcmem]
    rw [hnil]
  obtain ⟨ha, hs⟩ := scan_filtered tlvs ⟨ST_UNSPEC, [], Option.none, .none, .none⟩ hparse rfl
  have hany : tlvs.any (fun tlv => tlv.t == A_IPV6_ADDRESSES && tlv.length % 16 == 0) = true := by
    rw [List.any_eq_true]
    rcases hex with ⟨tlv, ht, h1, h2⟩
    exact ⟨tlv, ht, by simp [h1, h2]⟩
  rw [hany, if_pos rfl] at hs
  unfold render_post_n_mr
  rw [hdec, hrole, hsub]
  dsimp only
  rw [ha, hs]
  simp

/-- C10 witness: a Primary receiving an address list of one unicast and
one link-local-scope multicast address (both well-formed, both invalid)
answers Success with an untouched table and no notification. -/
theorem C10_all_invalid_filtered_success_witness :
    render_post_n_mr ctxPrimary [("ff05::1", Tout.finite 9)] 1000 mlrPayloadAllInvalid =
      .ok ⟨ST_SUCESS, [("ff05::1", Tout.finite 9)], Option.none, [A_STATUS, 1, ST_SUCESS]⟩ :=
  C10_all_invalid_filtered_success ctxPrimary [("ff05::1", Tout.finite 9)] 1000
    mlrPayloadAllInvalid [⟨A_IPV6_ADDRESSES, addr_unicast ++ addr_ff02_1⟩]
    (by decide)
    (by simp [sub_tlvs, mlrPayloadAllInvalid, ThreadTLV.array, addr_unicast, addr_ff02_1])
    ⟨⟨A_IPV6_ADDRESSES, addr_unicast ++ addr_ff02_1⟩, by simp, by decide, by decide⟩
    (by
      intro tlv ht h1 h2
      simp only [List.mem_singleton] at ht
      subst ht
      exact ⟨by decide, by decide⟩)

/-! ## Lemmas about `_mark_old_nodes` -/

/-- A string is a substring of itself, so Python `s in s` is `True`. -/
theorem pyIn_refl (s : String) : pyIn s s = true := by
  simp only [pyIn, decide_eq_true_eq]
  exact List.infix_refl _

/-- The topology records after `_mark_old_nodes`: every record stays, in
order, and only the `active` field changes — flipped to `"no"` exactly
for the records that were `"yes"` and fell behind the inactivity
window. -/
theorem mark_old_nodes_fst (now : Int) (ns : List NodeRec) (wl : List String) :
    (mark_old_nodes now ns wl).1 = ns.map (fun n =>
      if n.active = "yes" ∧ now - n.lastSeen > NODE_INACTIVE_MS
      then { n with active := "no" } else n) := by
  induction ns generalizing wl with
  | nil => rfl
  | cons n rest ih =>
    rw [List.map_cons]
    by_cases hc : n.active = "yes" ∧ now - n.lastSeen > NODE_INACTIVE_MS
    · simp only [mark_old_nodes]
      rw [if_pos hc, if_pos hc]
      dsimp only
      rw [ih]
    · simp only [mark_old_nodes]
      rw [if_neg hc, if_neg hc]
      dsimp only
      rw [ih]

/-- `_mark_old_nodes` only removes entries from the crawl worklist. -/
theorem mark_old_nodes_wl_subset (now : Int) (ns : List NodeRec) :
    ∀ (wl : List String), ∀ x ∈ (mark_old_nodes now ns wl).2, x ∈ wl := by
  induction ns with
  | nil => intro wl x hx; simpa [mark_old_nodes] using hx
  | cons n rest ih =>
    intro wl x hx
    simp only [mark_old_nodes] at hx
    split at hx
    · dsimp only at hx
      exact List.mem_of_mem_filter (ih _ x hx)
    · exact ih _ x hx

/-- The rloc16 of a record that `_mark_old_nodes` flips to inactive is
absent from the resulting crawl worklist. -/
theorem mark_old_nodes_removes (now : Int) (n : NodeRec) (hact : n.active = "yes")
    (hold : now - n.lastSeen > NODE_INACTIVE_MS) :
    ∀ (ns : List NodeRec) (wl : List String), n ∈ ns →
      n.rloc16 ∉ (mark_old_nodes now ns wl).2 := by
  intro ns
  induction ns with
  | nil => intro wl hn; simp at hn
  | cons m rest ih =>
    intro wl hn hmem
    rcases List.mem_cons.mp hn with rfl | hn'
    · simp only [mark_old_nodes] at hmem
      rw [if_pos ⟨hact, hold⟩] at hmem
      dsimp only at hmem
      have hsub := mark_old_nodes_wl_subset now rest _ _ hmem
      have hpred := List.of_mem_filter hsub
      simp [pyIn_refl] at hpred
    · simp only [mark_old_nodes] at hmem
      split at hmem
      · dsimp only at hmem
        exact ih _ hn' hmem
      · exact ih _ hn' hmem

/-- C9: `_mark_old_nodes` keeps every topology record (same list, in
order), flips a record's `active` flag to `"no"` exactly when it was
`"yes"` and `now - lastSeen` exceeds the 90 s inactivity window (all
other fields unchanged), and drops the flipped record's rloc16 from the
crawl worklist. -/
theorem C9_mark_old_nodes (now : Int) (nodes : List NodeRec) (wl : List String) :
    (mark_old_nodes now nodes wl).1 = nodes.map (fun n =>
        if n.active = "yes" ∧ now - n.lastSeen > NODE_INACTIVE_MS
        then { n with active := "no" } else n) ∧
    (∀ n ∈ nodes, n.active = "yes" → now - n.lastSeen > NODE_INACTIVE_MS →
      n.rloc16 ∉ (mark_old_nodes now nodes wl).2) :=
  ⟨mark_old_nodes_fst now nodes wl,
   fun n hn hact hold => mark_old_nodes_removes now n hact hold nodes wl hn⟩

/-! ## Lemmas about the Route64 decode -/

/-- Membership in `self.nodes_list` after the conditional append of a
route target. -/
theorem mem_addTarget (nodes : List String) (target t : String) :
    t ∈ (if target ∈ nodes then nodes else nodes ++ [target]) ↔ t ∈ nodes ∨ t = target := by
  split
  · constructor
    · exact fun h => Or.inl h
    · rintro (h | rfl)
      · exact h
      · assumption
  · simp [List.mem_append]

/-- The Route64 quality loop, characterised: with one quality byte
available per present router ID it returns normally; the recorded routes
are exactly `routeOf` of the (router ID, quality) pairs in order; a
target is in the final worklist iff it was there before or belongs to a
pair with nonzero incoming and outgoing quality; and the node's own ID
comes exactly from a pair with zero in/out quality and cost 1. -/
theorem r64go_spec : ∀ (rids qs : List Nat) (routes : List RouteEntry)
    (nodes : List String) (selfid : Option String),
    rids.length ≤ qs.length →
    ∃ routes' nodes' selfid',
      r64go rids qs routes nodes selfid = .ok (routes', nodes', selfid') ∧
      routes' = routes ++ (rids.zip qs).filterMap routeOf ∧
      (∀ t, t ∈ nodes' ↔ t ∈ nodes ∨ ∃ p ∈ rids.zip qs,
        (q_in p.2 ≠ 0 ∧ q_out p.2 ≠ 0) ∧ t = hex4 (p.1 <<< 10)) ∧
      (selfid'.isSome ↔ selfid.isSome ∨ ∃ p ∈ rids.zip qs, selfCond p.2) ∧
      (∀ s, selfid' = some s →
        selfid = some s ∨ ∃ p ∈ rids.zip qs, selfCond p.2 ∧ s = toString p.1) := by
  intro rids
  induction rids with
  | nil =>
    intro qs routes nodes selfid _
    refine ⟨routes, nodes, selfid, rfl, by simp, by simp, by simp, by simp⟩
  | cons rid rids ih =>
    intro qs routes nodes selfid hlen
    cases qs with
    | nil => simp at hlen
    | cons q qs =>
      simp only [List.length_cons, Nat.add_le_add_iff_right] at hlen
      rw [List.zip_cons_cons]
      by_cases hA : q_in q ≠ 0 ∧ q_out q ≠ 0
      · obtain ⟨routes', nodes', selfid', heq, hroutes, hnodes, hsome, hself⟩ :=
          ih qs (routes ++ [⟨toString rid, hex4 (rid <<< 10), toString (q_in q)⟩])
            (if hex4 (rid <<< 10) ∈ nodes then nodes else nodes ++ [hex4 (rid <<< 10)])
            selfid hlen
        refine ⟨routes', nodes', selfid', ?_, ?_, ?_, ?_, ?_⟩
        · rw [r64go, if_pos hA]
          exact heq
        · rw [hroutes, List.filterMap_cons]
          have hro : routeOf (rid, q) =
              some ⟨toString rid, hex4 (rid <<< 10), toString (q_in q)⟩ := by
            simp [routeOf, hA]
          rw [hro, List.append_assoc]
          rfl
        · intro t
          rw [hnodes t, mem_addTarget]
          constructor
          · rintro ((h | rfl) | h)
            · exact Or.inl h
            · exact Or.inr ⟨(rid, q), List.mem_cons_self .., hA, rfl⟩
            · obtain ⟨p, hp, hc, ht⟩ := h
              exact Or.inr ⟨p, List.mem_cons_of_mem _ hp, hc, ht⟩
          · rintro (h | ⟨p, hp, hc, ht⟩)
            · exact Or.inl (Or.inl h)
            · rcases List.mem_cons.mp hp with rfl | hp'
              · exact Or.inl (Or.inr ht)
              · exact Or.inr ⟨p, hp', hc, ht⟩
        · rw [hsome]
          have hnA : ¬ selfCond q := by
            intro hc
            exact hA.1 hc.1
          constructor
          · rintro (h | ⟨p, hp, hc⟩)
            · exact Or.inl h
            · exact Or.inr ⟨p, List.mem_cons_of_mem _ hp, hc⟩
          · rintro (h | ⟨p, hp, hc⟩)
            · exact Or.inl h
            · rcases List.mem_cons.mp hp with rfl | hp'
              · exact absurd hc hnA
              · exact Or.inr ⟨p, hp', hc⟩
        · intro s hs
          rcases hself s hs with h | ⟨p, hp, hc, hts⟩
          · exact Or.inl h
          · exact Or.inr ⟨p, List.mem_cons_of_mem _ hp, hc, hts⟩
      · by_cases hB : q_in q = 0 ∧ q_out q = 0 ∧ q_cost q = 1
        · obtain ⟨routes', nodes', selfid', heq, hroutes, hnodes, hsome, hself⟩ :=
            ih qs routes nodes (some (toString rid)) hlen
          refine ⟨routes', nodes', selfid', ?_, ?_, ?_, ?_, ?_⟩
          · rw [r64go, if_neg hA, if_pos hB]
            exact heq
          · rw [hroutes, List.filterMap_cons]
            have hro : routeOf (rid, q) = Option.none := by simp [routeOf, hA]
            rw [hro]
          · intro t
            rw [hnodes t]
            constructor
            · rintro (h | ⟨p, hp, hc, ht⟩)
              · exact Or.inl h
              · exact Or.inr ⟨p, List.mem_cons_of_mem _ hp, hc, ht⟩
            · rintro (h | ⟨p, hp, hc, ht⟩)
              · exact Or.inl h
              · rcases List.mem_cons.mp hp with rfl | hp'
                · exact absurd hc (by simpa using hA)
                · exact Or.inr ⟨p, hp', hc, ht⟩
          · rw [hsome]
            simp only [Option.isSome_some, true_or]
            constructor
            · intro _
              exact Or.inr ⟨(rid, q), List.mem_cons_self .., hB⟩
            · intro _
              trivial
          · intro s hs
            rcases hself s hs with h | ⟨p, hp, hc, hts⟩
            · cases h
              exact Or.inr ⟨(rid, q), List.mem_cons_self .., hB, rfl⟩
            · exact Or.inr ⟨p, List.mem_cons_of_mem _ hp, hc, hts⟩
        · obtain ⟨routes', nodes', selfid', heq, hroutes, hnodes, hsome, hself⟩ :=
            ih qs routes nodes selfid hlen
          refine ⟨routes', nodes', selfid', ?_, ?_, ?_, ?_, ?_⟩
          · rw [r64go, if_neg hA, if_neg hB]
            exact heq
          · rw [hroutes, List.filterMap_cons]
            have hro : routeOf (rid, q) = Option.none := by simp [routeOf, hA]
            rw [hro]
          · intro t
            rw [hnodes t]
            constructor
            · rintro (h | ⟨p, hp, hc, ht⟩)
              · exact Or.inl h
              · exact Or.inr ⟨p, List.mem_cons_of_mem _ hp, hc, ht⟩
            · rintro (h | ⟨p, hp, hc, ht⟩)
              · exact Or.inl h
              · rcases List.mem_cons.mp hp with rfl | hp'
                · exact absurd hc (by simpa using hA)
                · exact Or.inr ⟨p, hp', hc, ht⟩
          · rw [hsome]
            constructor
            · rintro (h | ⟨p, hp, hc⟩)
              · exact Or.inl h
              · exact Or.inr ⟨p, List.mem_cons_of_mem _ hp, hc⟩
            · rintro (h | ⟨p, hp, hc⟩)
              · exact Or.inl h
              · rcases List.mem_cons.mp hp with rfl | hp'
                · exact absurd hc hB
                · exact Or.inr ⟨p, hp', hc⟩
          · intro s hs
            rcases hself s hs with h | ⟨p, hp, hc, hts⟩
            · exact Or.inl h
            · exact Or.inr ⟨p, List.mem_cons_of_mem _ hp, hc, hts⟩

/-- C8: in the Route64 decode the recorded route entries are exactly
`routeOf` of the present (router ID, quality byte) pairs — an entry with
target `routerId << 10` exactly when both the incoming quality (bits 4-5)
and the outgoing quality (bits 6-7) are nonzero; such a target is in the
crawl worklist exactly when it already was or its pair qualifies; a
router ID is identified as the node's own exactly when a present pair has
zero in/out quality and cost 1 (the identified ID always comes from such
a pair); and the quality byte `0x11` (out 0, in 1, cost 1) for a present
router produces neither a route entry nor a self identification. -/
theorem C8_route64_decode (value : List Nat) (ns : List String)
    (hlen : (routerIdsOf value).length ≤ (qualitiesOf value).length) :
    ∃ routes nodes selfid,
      parse_route64 value ns = .ok (routes, nodes, selfid) ∧
      routes = ((routerIdsOf value).zip (qualitiesOf value)).filterMap routeOf ∧
      (∀ t, t ∈ nodes ↔ t ∈ ns ∨ ∃ p ∈ (routerIdsOf value).zip (qualitiesOf value),
        (q_in p.2 ≠ 0 ∧ q_out p.2 ≠ 0) ∧ t = hex4 (p.1 <<< 10)) ∧
      (∀ s, selfid = some s → ∃ p ∈ (routerIdsOf value).zip (qualitiesOf value),
        selfCond p.2 ∧ s = toString p.1) ∧
      (selfid = Option.none ↔
        ∀ p ∈ (routerIdsOf value).zip (qualitiesOf value), ¬ selfCond p.2) ∧
      parse_route64 [0, 0x04, 0, 0, 0, 0, 0, 0, 0, 0x11] [] = .ok ([], [], Option.none) := by
  obtain ⟨routes, nodes, selfid, heq, hroutes, hnodes, hsome, hself⟩ :=
    r64go_spec (routerIdsOf value) (qualitiesOf value) [] ns Option.none hlen
  refine ⟨routes, nodes, selfid, heq, by simpa using hroutes, hnodes, ?_, ?_, by decide⟩
  · intro s hs
    rcases hself s hs with h | h
    · exact absurd h (by simp)
    · exact h
  · rw [← Option.not_isSome_iff_eq_none, hsome]
    push_neg
    simp

/-- C8 witness: the Route64 value with router IDs 0 and 5 present,
quality `0x76` for router 0 and `0x01` for router 5, decoded from an
empty worklist. -/
theorem C8_route64_decode_witness :
    ∃ routes nodes selfid,
      parse_route64 route64Sample [] = .ok (routes, nodes, selfid) ∧
      routes = ((routerIdsOf route64Sample).zip (qualitiesOf route64Sample)).filterMap routeOf ∧
      (∀ t, t ∈ nodes ↔ t ∈ ([] : List String) ∨
        ∃ p ∈ (routerIdsOf route64Sample).zip (qualitiesOf route64Sample),
          (q_in p.2 ≠ 0 ∧ q_out p.2 ≠ 0) ∧ t = hex4 (p.1 <<< 10)) ∧
      (∀ s, selfid = some s →
        ∃ p ∈ (routerIdsOf route64Sample).zip (qualitiesOf route64Sample),
          selfCond p.2 ∧ s = toString p.1) ∧
      (selfid = Option.none ↔
        ∀ p ∈ (routerIdsOf route64Sample).zip (qualitiesOf route64Sample), ¬ selfCond p.2) ∧
      parse_route64 [0, 0x04, 0, 0, 0, 0, 0, 0, 0, 0x11] [] = .ok ([], [], Option.none) :=
  C8_route64_decode route64Sample [] (by decide)

/-! ## Lemmas about `_parse_net_data` -/

/-- When the network-data loop body returns the role, that role is
`"primary"` and the TLV satisfies the claim's Primary condition. -/
theorem scanOne_some (node_rloc : List Nat) (tlv : ThreadTLV) (s : String)
    (h : scanOne node_rloc tlv = .ok (some s)) :
    s = "primary" ∧ PrimaryDataset node_rloc tlv := by
  obtain ⟨tt, tv⟩ := tlv
  unfold scanOne at h
  dsimp only at h
  by_cases hsvc : tt >>> 1 = N_SERVICE
  case neg => rw [if_neg hsvc] at h; simp at h
  rw [if_pos hsvc] at h
  rcases tv with _ | ⟨v0, _ | ⟨v1, _ | ⟨v2, r⟩⟩⟩
  all_goals try dsimp only at h
  · simp at h
  · by_cases hbit : v0 >>> 7 ≠ 0
    · rw [if_pos hbit] at h; simp at h
    · rw [if_neg hbit] at h; simp at h
  · by_cases hbit : v0 >>> 7 ≠ 0
    · rw [if_pos hbit] at h
      by_cases h1 : v1 = 1
      · rw [if_pos h1] at h; simp at h
      · rw [if_neg h1] at h; simp at h
    · rw [if_neg hbit] at h; simp at h
  · by_cases hbit : v0 >>> 7 ≠ 0
    case neg => rw [if_neg hbit] at h; simp at h
    rw [if_pos hbit] at h
    by_cases h1 : v1 = 1
    case neg => rw [if_neg h1] at h; simp at h
    rw [if_pos h1] at h
    by_cases h2 : v2 = 1
    case neg => rw [if_neg h2] at h; simp at h
    rw [if_pos h2] at h
    simp only [List.drop_succ_cons, List.drop_zero] at h
    rcases hsub : sub_tlvs r with _ | tlist
    · rw [hsub] at h; simp at h
    · rw [hsub] at h
      rcases tlist with _ | ⟨srv, _ | ⟨s2, rest⟩⟩
      all_goals try dsimp only at h
      · simp at h
      · by_cases hrl : (node_rloc.drop 14).take 2 = srv.value.take 2
        · rw [if_pos hrl] at h
          simp only [Except.ok.injEq, Option.some.injEq] at h
          subst h
          exact ⟨rfl, hsvc, v0, v1, v2, r, rfl, hbit, h1, h2, srv, hsub, hrl⟩
        · rw [if_neg hrl] at h; simp at h
      · simp at h

/-- When the network-data loop body falls through to the next TLV, the
TLV fails the claim's Primary condition. -/
theorem scanOne_none (node_rloc : List Nat) (tlv : ThreadTLV)
    (h : scanOne node_rloc tlv = .ok Option.none) :
    ¬ PrimaryDataset node_rloc tlv := by
  rintro ⟨hsvc, v0, v1, v2, r, hval, hbit, h1, h2, srv, hsub, hrl⟩
  obtain ⟨tt, tv⟩ := tlv
  simp only at hval hsvc
  subst hval
  unfold scanOne at h
  dsimp only at h
  rw [if_pos hsvc, if_pos hbit, if_pos h1, if_pos h2] at h
  simp only [List.drop_succ_cons, List.drop_zero] at h
  rw [hsub] at h
  dsimp only at h
  rw [if_pos hrl] at h
  simp at h

/-- The role the network-data loop stores is `"primary"` exactly when
some scanned TLV satisfies the Primary condition, else `"secondary"`. -/
theorem netDataScan_primary_iff (node_rloc : List Nat) (tlvs : List ThreadTLV) (r : String)
    (h : netDataScan node_rloc tlvs = .ok r) :
    (r = "primary" ↔ ∃ tlv ∈ tlvs, PrimaryDataset node_rloc tlv) ∧
    (r = "primary" ∨ r = "secondary") := by
  induction tlvs with
  | nil =>
    simp only [netDataScan] at h
    cases h
    refine ⟨?_, Or.inr rfl⟩
    simp
  | cons tlv rest ih =>
    simp only [netDataScan] at h
    split at h
    · simp at h
    · next s hs =>
      cases h
      obtain ⟨hs', hPD⟩ := scanOne_some _ _ _ hs
      subst hs'
      exact ⟨⟨fun _ => ⟨tlv, List.mem_cons_self .., hPD⟩, fun _ => rfl⟩, Or.inl rfl⟩
    · next hnone =>
      obtain ⟨hiff, hcases⟩ := ih h
      have hnPD := scanOne_none _ _ hnone
      refine ⟨?_, hcases⟩
      rw [hiff]
      constructor
      · rintro ⟨tlv', ht', hPD⟩
        exact ⟨tlv', List.mem_cons_of_mem _ ht', hPD⟩
      · rintro ⟨tlv', ht', hPD⟩
        rcases List.mem_cons.mp ht' with rfl | ht''
        · exact absurd hPD hnPD
        · exact ⟨tlv', ht'', hPD⟩

/-- C7: when `_parse_net_data` completes, the stored BBR role is
`"primary"` if and only if a network-data sub-TLV is a Service TLV
carrying the BBR-dataset encoding with exactly one Server sub-TLV whose
encoded RLOC16 equals the last two bytes of the local RLOC address; in
every other case (server count not one, RLOC mismatch, or no BBR dataset
found) the stored role is `"secondary"`. -/
theorem C7_bbr_role_primary_iff (payload node_rloc : List Nat) (tlvs subs : List ThreadTLV)
    (r : String) (hsub : sub_tlvs payload = some tlvs) (hnd : netDataSubs tlvs = .ok subs)
    (hr : parse_net_data payload node_rloc = .ok r) :
    (r = "primary" ↔ ∃ tlv ∈ subs, PrimaryDataset node_rloc tlv) ∧
    (r = "primary" ∨ r = "secondary") := by
  unfold parse_net_data at hr
  rw [hsub] at hr
  dsimp only at hr
  rw [hnd] at hr
  exact netDataScan_primary_iff node_rloc subs r hr

/-- C7 witness: a network-data response with one Service TLV holding the
BBR-dataset encoding and a single Server sub-TLV matching the local
RLOC16 `0x1234` resolves the role to primary. -/
theorem C7_bbr_role_primary_iff_witness :
    (("primary" : String) = "primary" ↔
      ∃ tlv ∈ [serviceSample], PrimaryDataset rlocSample tlv) ∧
    (("primary" : String) = "primary" ∨ ("primary" : String) = "secondary") :=
  C7_bbr_role_primary_iff netDataSample rlocSample
    [⟨D_NETWORK_DATA, serviceSample.array⟩] [serviceSample] "primary"
    (by simp [sub_tlvs, netDataSample, serviceSample, ThreadTLV.array, D_NETWORK_DATA])
    (by simp [netDataSubs, netDataSubsGo, sub_tlvs, serviceSample, ThreadTLV.array,
      D_NETWORK_DATA])
    (by simp [parse_net_data, netDataSubs, netDataSubsGo, netDataScan, scanOne, sub_tlvs,
      netDataSample, rlocSample, serviceSample, ThreadTLV.array, D_NETWORK_DATA, N_SERVICE])

end KiBRA

